import Mathlib

/-!
Verification of the promise core of the papillon-blog repository:
the `SimplePromise` state machine (src/unnamed/part_000) and the
`to` result-normalization utility (src/src/lib/myNew.js, the
errorStrategies / standardizeError / extendError / to version).

JavaScript values that can appear as fulfillment values, rejection
reasons and normalized error records are shallowly embedded as the
inductive type `JSValue`.  JS objects are association lists of
string keys in insertion order; spread semantics is modelled by
`oset` / `ospread` (an existing key keeps its position and gets the
new value, a fresh key is appended).  JS numbers are modelled as
integers (the code never does arithmetic on them beyond string
interpolation); the host-generated `stack` text of a freshly
constructed `Error` is never inspected by the code and is modelled
by the fixed string `hostStack`.
-/

namespace Papillon

inductive JSValue where
  | undef
  | nullv
  | str (s : String)
  | num (n : Int)
  | boolv (b : Bool)
  | errObj (message name stack : String)
  | func (name src : String)
  | obj (fields : List (String × JSValue))
  | sym (desc : String)

/-- Association-list update with JS object-spread semantics: an existing
key keeps its insertion position and receives the new value; a fresh key
is appended at the end. -/
def oset (fields : List (String × JSValue)) (k : String) (v : JSValue) :
    List (String × JSValue) :=
  if fields.any (fun kv => kv.1 == k) then
    fields.map (fun kv => if kv.1 == k then (k, v) else kv)
  else
    fields ++ [(k, v)]

/-- Spread `extra` onto `base`, left to right, as in a JS object literal
with two spreads. -/
def ospread (base extra : List (String × JSValue)) :
    List (String × JSValue) :=
  extra.foldl (fun acc kv => oset acc kv.1 kv.2) base

/-- Property lookup on an object value (used only to state theorems). -/
def getField (v : JSValue) (k : String) : Option JSValue :=
  match v with
  | JSValue.obj fields => (fields.find? (fun kv => kv.1 == k)).map (fun kv => kv.2)
  | _ => none

/-- The result of `String(v)` for the values of our universe.  Only the
symbol case is reachable from `standardizeError` (every other shape is
caught by an earlier guard). -/
def jsToString : JSValue → String
  | JSValue.undef => "undefined"
  | JSValue.nullv => "null"
  | JSValue.str s => s
  | JSValue.num n => toString n
  | JSValue.boolv b => if b then "true" else "false"
  | JSValue.errObj m n _ => n ++ ": " ++ m
  | JSValue.func _ src => src
  | JSValue.obj _ => "[object Object]"
  | JSValue.sym d => "Symbol(" ++ d ++ ")"

/-- Host-generated stack text of `new Error(...)`; opaque to the code. -/
def hostStack : String := "<host stack>"

namespace errorStrategies

def string (value : String) : JSValue :=
  JSValue.obj [("message", JSValue.str value)]

def number (value : Int) : JSValue :=
  JSValue.obj [("code", JSValue.num value),
               ("message", JSValue.str ("Error " ++ toString value))]

def boolean (value : Bool) : JSValue :=
  JSValue.obj [("success", JSValue.boolv value),
               ("message", JSValue.str (if value then "Success" else "Failure"))]

def function (name src : String) : JSValue :=
  JSValue.obj [("message", JSValue.str ("Function error")),
               ("functionName", JSValue.str name),
               ("functionString", JSValue.str src)]

def object (fields : List (String × JSValue)) : JSValue :=
  JSValue.obj (ospread [("message", JSValue.str ("Object error"))] fields)

def dflt (value : JSValue) : JSValue :=
  JSValue.obj [("message", JSValue.str (jsToString value)),
               ("originalValue", value)]

end errorStrategies

namespace typeGuards

def isEmpty : JSValue → Bool
  | JSValue.undef => true
  | JSValue.nullv => true
  | JSValue.str s => s == ""
  | _ => false

def isError : JSValue → Bool
  | JSValue.errObj _ _ _ => true
  | _ => false

end typeGuards

/-- Field extraction of an `Error` instance, the body of `toErrorObject`
inside `standardizeError`. -/
def toErrorObject (message name stack : String) : JSValue :=
  JSValue.obj [("message", JSValue.str message),
               ("name", JSValue.str name),
               ("stack", JSValue.str stack)]

/-- The guard cascade of `processError`: isString, isNumber, isBoolean,
isFunction, isObject, default — in that order.  An `Error` instance
satisfies the isObject guard (`typeof` is object and it is not null) but
has no own enumerable fields, so spreading it contributes nothing;
`undefined`, `null` and symbols fall through to the default strategy. -/
def processError : JSValue → JSValue
  | JSValue.str s => errorStrategies.string s
  | JSValue.num n => errorStrategies.number n
  | JSValue.boolv b => errorStrategies.boolean b
  | JSValue.func name src => errorStrategies.function name src
  | JSValue.obj fields => errorStrategies.object fields
  | JSValue.errObj _ _ _ => errorStrategies.object []
  | v => errorStrategies.dflt v

/-- `standardizeError`: empty values become `new Error("Empty error")`
run through the Error extraction; Error instances are extracted; all
other values go through the strategy cascade. -/
def standardizeError (err : JSValue) : JSValue :=
  if typeGuards.isEmpty err then
    toErrorObject ("Empty error") ("Error") hostStack
  else
    match err with
    | JSValue.errObj m n st => toErrorObject m n st
    | _ => processError err

/-- Caller-supplied extra context fields merged onto an error record. -/
abbrev ErrExt := List (String × JSValue)

/-- Own enumerable fields of a value, as seen by an object spread.
Primitives and `Error` instances contribute no fields.  (In `to` this is
only ever applied to the normalizer's output, which is a plain object.) -/
def ownFields : JSValue → List (String × JSValue)
  | JSValue.obj fields => fields
  | _ => []

/-- `extendError`: if extra context is supplied, spread it over the
error record, context fields winning on collision; otherwise return the
record unchanged. -/
def extendError (err : JSValue) (errorExt : Option ErrExt) : JSValue :=
  match errorExt with
  | none => err
  | some ext => JSValue.obj (ospread (ownFields err) ext)

/-- The settled outcome of the promise handed to `to`. -/
inductive SettledInput where
  | fulfilled (v : JSValue)
  | rejected (e : JSValue)

/-- The settled outcome of the promise `to` returns: a two-slot tuple
when it fulfills, or a rejection (which the theorems show never
occurs). -/
inductive ToOutcome where
  | fulfilledT (error data : JSValue)
  | rejectedT (e : JSValue)

/-- The exported `to` function (`to` is reserved in Lean, hence `toFn`):
the `.then` handler wraps a fulfillment `v` as `[null, v]`; the `.catch`
handler wraps a rejection `e` as
`[extendError (standardizeError e) ext, undefined]`.  Both handlers are
total, so each branch fulfills the resulting promise. -/
def toFn (input : SettledInput) (errorExt : Option ErrExt) : ToOutcome :=
  match input with
  | SettledInput.fulfilled v => ToOutcome.fulfilledT JSValue.nullv v
  | SettledInput.rejected e =>
      ToOutcome.fulfilledT (extendError (standardizeError e) errorExt) JSValue.undef

/-- First slot of the outcome tuple (the error slot). -/
def toErrorSlot : ToOutcome → JSValue
  | ToOutcome.fulfilledT e _ => e
  | ToOutcome.rejectedT e => e

/-!
The `SimplePromise` class of src/unnamed/part_000.  Its instance fields
become the structure `Promise`; the queued continuations are opaque to
the state machine, so they are represented by numeric identifiers, and
a settlement call returns, next to the updated record, the trace of
continuation invocations it performs (identifier paired with the
argument passed), in the order the source's `forEach` runs them.
The generic value type `α` stands for the JS values stored in
`value` / `reason`.
-/

inductive PState where
  | pending
  | fulfilled
  | rejected
deriving DecidableEq

structure Promise (α : Type) where
  state : PState
  value : Option α
  reason : Option α
  onFulfilledCallbacks : List Nat
  onRejectedCallbacks : List Nat
deriving DecidableEq

/-- The field values set up by the constructor before the executor runs. -/
def initPromise {α : Type} : Promise α :=
  { state := PState.pending, value := none, reason := none,
    onFulfilledCallbacks := [], onRejectedCallbacks := [] }

/-- `resolve(value)`: when pending, moves to fulfilled, records the
value, and runs every stored fulfillment callback in order on the new
value; otherwise does nothing.  The source never clears the callback
arrays. -/
def Promise.resolve {α : Type} (p : Promise α) (v : α) :
    Promise α × List (Nat × α) :=
  if p.state = PState.pending then
    ({ p with state := PState.fulfilled, value := some v },
     p.onFulfilledCallbacks.map (fun cb => (cb, v)))
  else
    (p, [])

/-- `reject(reason)`: symmetric to `resolve`, with the rejection
callbacks. -/
def Promise.reject {α : Type} (p : Promise α) (r : α) :
    Promise α × List (Nat × α) :=
  if p.state = PState.pending then
    ({ p with state := PState.rejected, reason := some r },
     p.onRejectedCallbacks.map (fun cb => (cb, r)))
  else
    (p, [])

/-- One call made by an executor to its `resolve` / `reject`
capabilities. -/
inductive ExecCall (α : Type) where
  | res (v : α)
  | rej (r : α)
deriving DecidableEq

def applyCall {α : Type} (p : Promise α) (c : ExecCall α) : Promise α :=
  match c with
  | ExecCall.res v => (p.resolve v).1
  | ExecCall.rej r => (p.reject r).1

def applyCalls {α : Type} (p : Promise α) (cs : List (ExecCall α)) : Promise α :=
  cs.foldl applyCall p

/-- The observable behavior of a synchronous executor: the sequence of
settle calls it makes, and, when it terminates by raising, the raised
value. -/
structure ExecBehavior (α : Type) where
  calls : List (ExecCall α)
  thrown : Option α
deriving DecidableEq

/-- The constructor body: fields are initialized, then
`executor?.(resolve, reject)` runs the executor only when one is
present, and a value the executor raises is caught and passed to
`reject`.  The constructor itself is total: it never re-raises. -/
def construct {α : Type} (ex : Option (ExecBehavior α)) : Promise α :=
  match ex with
  | none => initPromise
  | some b =>
      let p := applyCalls initPromise b.calls
      match b.thrown with
      | some e => (p.reject e).1
      | none => p

/-- The effect of `then` on the source promise's own fields: when the
source is already settled the two handlers are merely scheduled
(no field changes); while pending, a wrapper is pushed onto each
callback array.  `cbF` / `cbR` are the identifiers of the two wrappers
being registered. -/
def thenSource {α : Type} (p : Promise α) (cbF cbR : Nat) : Promise α :=
  if p.state = PState.fulfilled then p
  else if p.state = PState.rejected then p
  else { p with onFulfilledCallbacks := p.onFulfilledCallbacks ++ [cbF],
                onRejectedCallbacks := p.onRejectedCallbacks ++ [cbR] }

/-- What a JS handler does on one argument: return a value or raise. -/
inductive HResult (α : Type) where
  | ok (v : α)
  | thrown (e : α)

/-- An argument passed in a handler position of `then`: a function, or
any non-function value (including the `undefined` of an omitted
argument). -/
inductive CbSlot (α : Type) where
  | fn (f : α → HResult α)
  | nonFn

/-- The `typeof onFulfilled === "function" ? onFulfilled : identity`
normalization at the top of `then` (the defaulted parameters land in the
same identity case). -/
def normalizeCb {α : Type} (c : CbSlot α) : α → HResult α :=
  match c with
  | CbSlot.fn f => f
  | CbSlot.nonFn => fun v => HResult.ok v

/-- A settled promise outcome. -/
inductive Settled (α : Type) where
  | fulfilled (v : α)
  | rejected (r : α)
deriving DecidableEq

/-- The body shared by `handleFulfilled` / `handleRejected` inside
`then`: run the handler; a returned value resolves the chained promise,
a raised value rejects it. -/
def handleWith {α : Type} (h : α → HResult α) (x : α) : Settled α :=
  match h x with
  | HResult.ok r => Settled.fulfilled r
  | HResult.thrown e => Settled.rejected e

/-- The eventual settlement of the promise returned by
`then(onFulfilled, onRejected)`, as a function of the source's
settlement.  Deferral (`setTimeout`) only delays the handler run; the
chained promise's final state is the same whether the source settled
before or after the `then` call, so one function covers both the
already-settled branches and the queued-wrapper branch. -/
def thenSettled {α : Type} (s : Settled α) (onFulfilled onRejected : CbSlot α) :
    Settled α :=
  match s with
  | Settled.fulfilled v => handleWith (normalizeCb onFulfilled) v
  | Settled.rejected r => handleWith (normalizeCb onRejected) r

/-- `catch(onRejected)` is `then(null, onRejected)`; `null` is a
non-function handler slot. -/
def catchSettled {α : Type} (s : Settled α) (onRejected : CbSlot α) : Settled α :=
  thenSettled s CbSlot.nonFn onRejected

/-! Helper lemmas about the promise state machine. -/

theorem resolve_of_settled {α : Type} (p : Promise α)
    (h : p.state ≠ PState.pending) (v : α) : p.resolve v = (p, []) := by
  simp [Promise.resolve, h]

theorem reject_of_settled {α : Type} (p : Promise α)
    (h : p.state ≠ PState.pending) (r : α) : p.reject r = (p, []) := by
  simp [Promise.reject, h]

theorem applyCall_of_settled {α : Type} (p : Promise α)
    (h : p.state ≠ PState.pending) (c : ExecCall α) : applyCall p c = p := by
  cases c <;> simp [applyCall, Promise.resolve, Promise.reject, h]

theorem applyCall_state {α : Type} (p : Promise α)
    (h : p.state = PState.pending) (c : ExecCall α) :
    (applyCall p c).state ≠ PState.pending := by
  cases c <;> simp [applyCall, Promise.resolve, Promise.reject, h]

theorem applyCalls_of_settled {α : Type} :
    ∀ (cs : List (ExecCall α)) (p : Promise α),
      p.state ≠ PState.pending → applyCalls p cs = p := by
  intro cs
  induction cs with
  | nil => intro p _; rfl
  | cons c cs ih =>
      intro p h
      have hc : applyCall p c = p := applyCall_of_settled p h c
      calc applyCalls p (c :: cs) = applyCalls (applyCall p c) cs := rfl
        _ = applyCalls p cs := by rw [hc]
        _ = p := ih p h

/-- Claim C1, counterexample: on a promise rejected with reason 7,
`then` with both handlers defaulted yields a chained promise that is
fulfilled with 7 — not rejected with 7 as the claim states (the default
`onRejected` returns the reason and `handleRejected` resolves with the
returned value). -/
theorem C1_counterexample :
    thenSettled (Settled.rejected (7 : Nat)) CbSlot.nonFn CbSlot.nonFn =
      Settled.fulfilled 7 ∧
    Settled.fulfilled (7 : Nat) ≠ Settled.rejected 7 :=
  ⟨rfl, by decide⟩

/-- Claim C1, amended: for a promise rejected with reason r, `then`
without an `onRejected` handler yields a chained promise that is
fulfilled with the same reason r — the failure is converted into a
fulfillment rather than propagating as a rejection to downstream
rejection handlers. -/
theorem C1_default_onRejected_fulfills {α : Type} (r : α) (onF : CbSlot α) :
    thenSettled (Settled.rejected r) onF CbSlot.nonFn = Settled.fulfilled r :=
  rfl

/-- Claim C2: on a pending promise, the first `resolve`/`reject` call
settles the state (recording value or reason, respectively) and every
subsequent call in any sequence is a no-op, leaving the whole record
exactly as the first transition set it. -/
theorem C2_single_settlement {α : Type} (p : Promise α)
    (h : p.state = PState.pending) (c : ExecCall α) (cs : List (ExecCall α)) :
    (applyCall p c).state ≠ PState.pending ∧
    applyCalls (applyCall p c) cs = applyCall p c ∧
    (∀ v, c = ExecCall.res v →
      applyCall p c = { p with state := PState.fulfilled, value := some v }) ∧
    (∀ r, c = ExecCall.rej r →
      applyCall p c = { p with state := PState.rejected, reason := some r }) := by
  refine ⟨applyCall_state p h c,
    applyCalls_of_settled cs (applyCall p c) (applyCall_state p h c), ?_, ?_⟩
  · intro v hc
    subst hc
    simp [applyCall, Promise.resolve, h]
  · intro r hc
    subst hc
    simp [applyCall, Promise.reject, h]

/-- Claim C2, witness at a fresh promise resolved with 3 and then hit
with further settle calls. -/
theorem C2_single_settlement_witness :
    (initPromise : Promise Nat).state = PState.pending ∧
    applyCalls (applyCall (initPromise : Promise Nat) (ExecCall.res 3))
        [ExecCall.rej 4, ExecCall.res 5] =
      applyCall (initPromise : Promise Nat) (ExecCall.res 3) :=
  ⟨rfl, (C2_single_settlement (initPromise : Promise Nat) rfl (ExecCall.res 3)
    [ExecCall.rej 4, ExecCall.res 5]).2.1⟩

/-- Claim C6, counterexample: an executor that calls `resolve(1)` and
then throws 2 leaves the promise fulfilled with 1 — not rejected with
the thrown value, because the catch-branch `reject` is a no-op once the
promise is settled. -/
theorem C6_counterexample :
    construct (some (⟨[ExecCall.res 1], some 2⟩ : ExecBehavior Nat)) =
      { state := PState.fulfilled, value := some 1, reason := none,
        onFulfilledCallbacks := [], onRejectedCallbacks := [] } ∧
    (construct (some (⟨[ExecCall.res 1], some 2⟩ : ExecBehavior Nat))).state ≠
      PState.rejected := by
  decide

/-- Claim C6, amended: when an executor throws synchronously and the
promise is still pending at that point (no earlier resolve/reject call
settled it), the promise ends rejected with the thrown value; the
constructor converts the raise and never re-throws (the model is a
total function).  In addition, a value thrown later inside a `then`
handler is handled by `then`'s own catch — it rejects only the chained
promise — not by the construction-time catch. -/
theorem C6_executor_throw_rejects {α : Type} (b : ExecBehavior α) (e : α)
    (hthrow : b.thrown = some e)
    (hpend : (applyCalls initPromise b.calls).state = PState.pending) :
    construct (some b) =
      { applyCalls (initPromise : Promise α) b.calls with
          state := PState.rejected, reason := some e } ∧
    (∀ (v err : α) (onR : CbSlot α),
      thenSettled (Settled.fulfilled v)
          (CbSlot.fn (fun _ => HResult.thrown err)) onR =
        Settled.rejected err) := by
  constructor
  · simp [construct, hthrow, Promise.reject, hpend]
  · intro v err onR
    rfl

/-- Claim C6, witness: an executor that only throws 5 produces a
promise rejected with 5. -/
theorem C6_executor_throw_rejects_witness :
    ((⟨[], some 5⟩ : ExecBehavior Nat).thrown = some 5 ∧
     (applyCalls initPromise (⟨[], some 5⟩ : ExecBehavior Nat).calls).state =
       PState.pending) ∧
    construct (some (⟨[], some 5⟩ : ExecBehavior Nat)) =
      { applyCalls (initPromise : Promise Nat)
          (⟨[], some 5⟩ : ExecBehavior Nat).calls with
          state := PState.rejected, reason := some 5 } :=
  ⟨⟨rfl, rfl⟩,
   (C6_executor_throw_rejects (⟨[], some 5⟩ : ExecBehavior Nat) 5 rfl rfl).1⟩

/-- Claim C7, counterexample: after a queued continuation (id 0) is
drained by `resolve`, the `onFulfilledCallbacks` array still holds the
entry — the source never clears the callback arrays, contradicting the
claimed permanent clearing. -/
theorem C7_counterexample :
    ((thenSource (initPromise : Promise Nat) 0 1).resolve 5).1.onFulfilledCallbacks
      = [0] ∧
    ((thenSource (initPromise : Promise Nat) 0 1).resolve 5).1.onFulfilledCallbacks
      ≠ [] := by
  decide

/-- Claim C7, amended: continuations queued while pending are drained
in insertion order exactly once upon settlement (later settle calls
drain nothing), and a settled promise never accumulates new entries
(`then` on a settled promise leaves the record unchanged; on a pending
promise it appends one wrapper to each array) — but the arrays are not
cleared afterwards: the drained entries remain stored. -/
theorem C7_drain_order_once {α : Type} (p : Promise α)
    (h : p.state = PState.pending) (v w : α) :
    (p.resolve v).2 = p.onFulfilledCallbacks.map (fun cb => (cb, v)) ∧
    (p.reject w).2 = p.onRejectedCallbacks.map (fun cb => (cb, w)) ∧
    ((p.resolve v).1.resolve w).2 = [] ∧
    ((p.resolve v).1.reject w).2 = [] ∧
    ((p.reject w).1.resolve v).2 = [] ∧
    ((p.reject w).1.reject v).2 = [] ∧
    (∀ cbF cbR, thenSource (p.resolve v).1 cbF cbR = (p.resolve v).1) ∧
    (∀ cbF cbR, thenSource (p.reject w).1 cbF cbR = (p.reject w).1) ∧
    (∀ cbF cbR, thenSource p cbF cbR =
      { p with onFulfilledCallbacks := p.onFulfilledCallbacks ++ [cbF],
               onRejectedCallbacks := p.onRejectedCallbacks ++ [cbR] }) := by
  refine ⟨?_, ?_, ?_, ?_, ?_, ?_, ?_, ?_, ?_⟩ <;>
    simp [Promise.resolve, Promise.reject, thenSource, h]

/-- Claim C7, witness at a fresh promise carrying one queued wrapper
pair. -/
theorem C7_drain_order_once_witness :
    (thenSource (initPromise : Promise Nat) 0 1).state = PState.pending ∧
    ((thenSource (initPromise : Promise Nat) 0 1).resolve 5).2 =
      (thenSource (initPromise : Promise Nat) 0 1).onFulfilledCallbacks.map
        (fun cb => (cb, 5)) :=
  ⟨rfl, (C7_drain_order_once (thenSource (initPromise : Promise Nat) 0 1)
    rfl 5 6).1⟩

/-- Claim C9: a non-function value in a handler position of `then`
behaves exactly like the identity default handler, and `catch`
(which is `then(null, onRejected)`) passes fulfillment values through
unchanged. -/
theorem C9_nonfunction_handlers {α : Type} (s : Settled α)
    (onF onR : CbSlot α) :
    thenSettled s CbSlot.nonFn onR =
      thenSettled s (CbSlot.fn (fun v => HResult.ok v)) onR ∧
    thenSettled s onF CbSlot.nonFn =
      thenSettled s onF (CbSlot.fn (fun r => HResult.ok r)) ∧
    (∀ v, catchSettled (Settled.fulfilled v) onR = Settled.fulfilled v) := by
  refine ⟨?_, ?_, fun v => rfl⟩ <;> cases s <;> rfl

/-- Claim C10: constructing without an executor leaves the promise
pending, with no value, no reason and empty callback arrays; the
optional-chaining call `executor?.(...)` runs nothing when the
executor is absent, and the constructor (a total function here) does
not throw. -/
theorem C10_no_executor_pending (α : Type) :
    construct (none : Option (ExecBehavior α)) =
      { state := PState.pending, value := none, reason := none,
        onFulfilledCallbacks := [], onRejectedCallbacks := [] } :=
  rfl

/-! Helper lemmas about the normalizer. -/

/-- Every branch of `standardizeError` builds a plain object record. -/
theorem standardizeError_obj (e : JSValue) :
    ∃ fs, standardizeError e = JSValue.obj fs := by
  cases e with
  | str s =>
      simp only [standardizeError, typeGuards.isEmpty]
      split
      · exact ⟨_, rfl⟩
      · exact ⟨_, rfl⟩
  | undef => exact ⟨_, rfl⟩
  | nullv => exact ⟨_, rfl⟩
  | num n => exact ⟨_, rfl⟩
  | boolv b => exact ⟨_, rfl⟩
  | errObj m n st => exact ⟨_, rfl⟩
  | func n s => exact ⟨_, rfl⟩
  | obj fs => exact ⟨_, rfl⟩
  | sym d => exact ⟨_, rfl⟩

/-- Extending an object record yields an object record. -/
theorem extendError_obj (fs : List (String × JSValue)) (ext : Option ErrExt) :
    ∃ gs, extendError (JSValue.obj fs) ext = JSValue.obj gs := by
  cases ext with
  | none => exact ⟨fs, rfl⟩
  | some ext => exact ⟨_, rfl⟩

/-- The error slot built on the rejection path is an object record. -/
theorem normalized_error_obj (e : JSValue) (ext : Option ErrExt) :
    ∃ gs, extendError (standardizeError e) ext = JSValue.obj gs := by
  obtain ⟨fs, hfs⟩ := standardizeError_obj e
  rw [hfs]
  exact extendError_obj fs ext

/-- On any rejection, the error slot of the tuple is not null. -/
theorem rejected_error_slot_ne_null (e : JSValue) (ext : Option ErrExt) :
    toErrorSlot (toFn (SettledInput.rejected e) ext) ≠ JSValue.nullv := by
  intro hnull
  obtain ⟨gs, hgs⟩ := normalized_error_obj e ext
  have hslot : toErrorSlot (toFn (SettledInput.rejected e) ext) =
      extendError (standardizeError e) ext := rfl
  rw [hslot, hgs] at hnull
  exact JSValue.noConfusion hnull

/-- Claim C3: the future returned by `to` always fulfills with a
two-slot tuple and never rejects; a fulfillment `v` of the input gives
the tuple `(null, v)`, and any rejection `e` gives
`(record, undefined)` where the record is the normalized error — a
non-null plain object — merged with the extra context. -/
theorem C3_to_always_fulfills (input : SettledInput) (ext : Option ErrExt) :
    (∃ errSlot dataSlot, toFn input ext = ToOutcome.fulfilledT errSlot dataSlot) ∧
    (∀ v, toFn (SettledInput.fulfilled v) ext = ToOutcome.fulfilledT JSValue.nullv v) ∧
    (∀ e, ∃ fs, toFn (SettledInput.rejected e) ext =
        ToOutcome.fulfilledT (JSValue.obj fs) JSValue.undef ∧
      JSValue.obj fs = extendError (standardizeError e) ext) := by
  refine ⟨?_, fun v => rfl, fun e => ?_⟩
  · cases input with
    | fulfilled v => exact ⟨_, _, rfl⟩
    | rejected e => exact ⟨_, _, rfl⟩
  · obtain ⟨gs, hgs⟩ := normalized_error_obj e ext
    refine ⟨gs, ?_, hgs.symm⟩
    show ToOutcome.fulfilledT (extendError (standardizeError e) ext) JSValue.undef =
      ToOutcome.fulfilledT (JSValue.obj gs) JSValue.undef
    rw [hgs]

/-- Claim C4, counterexample: on an empty rejection (`undefined`), the
record's message is the Error-extraction message of
`Error("Empty error")`, not the `"Function error"` message that the
claimed rule 6 (the callable rule) always produces. -/
theorem C4_counterexample :
    getField (standardizeError JSValue.undef) ("message") =
      some (JSValue.str ("Empty error")) ∧
    getField (standardizeError JSValue.undef) ("message") ≠
      some (JSValue.str ("Function error")) ∧
    getField (errorStrategies.function ("f") ("function f() {}")) ("message") =
      some (JSValue.str ("Function error")) := by
  refine ⟨rfl, ?_, rfl⟩
  intro h
  have h2 : some (JSValue.str ("Empty error")) =
      some (JSValue.str ("Function error")) := h
  have h3 := Option.some.inj h2
  have h4 : ("Empty error" : String) = "Function error" := by injection h3
  exact absurd h4 (by decide)

/-- Claim C4, amended: a nullish or empty-string rejection is treated
as `Error("Empty error")` and then run through the Error-instance
extraction (rule 2), yielding the record with message `"Empty error"`,
name `"Error"` and the host stack text. -/
theorem C4_empty_error_extraction (e : JSValue)
    (h : typeGuards.isEmpty e = true) :
    standardizeError e =
      JSValue.obj [("message", JSValue.str ("Empty error")),
                   ("name", JSValue.str ("Error")),
                   ("stack", JSValue.str hostStack)] := by
  simp [standardizeError, h, toErrorObject]

/-- Claim C4, witness at the `undefined` rejection. -/
theorem C4_empty_error_extraction_witness :
    typeGuards.isEmpty JSValue.undef = true ∧
    standardizeError JSValue.undef =
      JSValue.obj [("message", JSValue.str ("Empty error")),
                   ("name", JSValue.str ("Error")),
                   ("stack", JSValue.str hostStack)] :=
  ⟨rfl, C4_empty_error_extraction JSValue.undef rfl⟩

/-- Claim C5: a non-empty string rejection `s` normalizes to exactly
the record with the single field `message = s`; in particular
rejecting with the string `"Error"` yields the tuple
`({message: "Error"}, undefined)`. -/
theorem C5_string_rule (s : String) (h : s ≠ "") :
    standardizeError (JSValue.str s) =
      JSValue.obj [("message", JSValue.str s)] ∧
    toFn (SettledInput.rejected (JSValue.str ("Error"))) none =
      ToOutcome.fulfilledT (JSValue.obj [("message", JSValue.str ("Error"))])
        JSValue.undef := by
  constructor
  · have hb : (s == "") = false := beq_eq_false_iff_ne.mpr h
    simp [standardizeError, typeGuards.isEmpty, hb, processError,
      errorStrategies.string]
  · rfl

/-- Claim C5, witness at the string `"Error"`. -/
theorem C5_string_rule_witness :
    ("Error" : String) ≠ "" ∧
    standardizeError (JSValue.str ("Error")) =
      JSValue.obj [("message", JSValue.str ("Error"))] :=
  ⟨by decide, (C5_string_rule ("Error") (by decide)).1⟩

/-- Claim C8: the error slot of the tuple is null exactly when the
input fulfilled; rejections with falsy values (`false`, `0`, and the
empty cases such as `undefined`) still put a non-null record in the
first slot, so callers can branch solely on `error === null`. -/
theorem C8_error_null_iff_fulfilled (input : SettledInput) (ext : Option ErrExt) :
    (toErrorSlot (toFn input ext) = JSValue.nullv ↔
      ∃ v, input = SettledInput.fulfilled v) ∧
    toErrorSlot (toFn (SettledInput.rejected (JSValue.boolv false)) ext) ≠
      JSValue.nullv ∧
    toErrorSlot (toFn (SettledInput.rejected (JSValue.num 0)) ext) ≠
      JSValue.nullv ∧
    toErrorSlot (toFn (SettledInput.rejected JSValue.undef) ext) ≠
      JSValue.nullv := by
  refine ⟨?_, rejected_error_slot_ne_null (JSValue.boolv false) ext,
    rejected_error_slot_ne_null (JSValue.num 0) ext,
    rejected_error_slot_ne_null JSValue.undef ext⟩
  cases input with
  | fulfilled v => exact ⟨fun _ => ⟨v, rfl⟩, fun _ => rfl⟩
  | rejected e =>
      constructor
      · intro hnull
        exact absurd hnull (rejected_error_slot_ne_null e ext)
      · rintro ⟨v, hv⟩
        exact SettledInput.noConfusion hv

end Papillon
